import Mathlib

/-!
# GranStocks — Market Data Aggregation & Caching Engine: shallow embedding

This file embeds the market-data core of the GranStocks server in Lean 4 and
proves the frozen claims about it.

Embedded source files:
* `server/src/services/market-data.ts` (`MarketData`, the Aggregation Router)
* `server/src/services/providers/alphavantage.ts` (`AlphaVantageProvider`)
* `server/src/services/providers/binance.ts` (`BinanceProvider`)
* `server/src/services/price-history.ts` (`PriceHistoryService`, the History Store)
* `server/src/routes.ts` (`POST /api/admin/screener/run`, the Job Coordinator check)

Modelling conventions:
* Async JS functions become pure Lean functions from an environment (`Env`,
  holding the outcome of every outbound `fetch`, `JSON.parse`, `parseFloat`
  and the clock) and a state (`St`, holding the persisted cache store and the
  `BinanceProvider` static fields) to a result, a new state, and a trace of
  side effects (`Eff`).  A JS `throw`/rejected promise is `Except.error`.
* JS numbers are represented by `Int` (no arithmetic is ever performed on a
  price in this core, so the representation of the numeric payload is opaque;
  `parseFloat` is an environment function `String → Int`).
* `CacheService` (`server/src/services/cache.ts`) is not part of the sources;
  its reader and writer are modelled from the spec (see
  `CacheService.getCacheConfig` below).
-/

/-- JS numbers carried through the data paths; the core never computes with
them, so they are represented opaquely as integers. -/
abbrev JsNumber := Int

inductive AssetType where
  | STOCK
  | CRYPTO
deriving DecidableEq, Repr

/-- The canonical quote shape produced by every quote path
(`market-data.ts` line 19, `alphavantage.ts` line 24, `binance.ts` lines 30
and 113).  Exactly eight fields; the timestamp field is named `ts` in the
source. -/
structure Quote where
  symbol : String
  assetType : AssetType
  price : JsNumber
  changeAbs : JsNumber
  changePct : JsNumber
  ts : JsNumber
  source : String
  isStale : Bool
deriving DecidableEq, Repr

/-- The canonical candle-series shape `{s, t, o, h, l, c, v, source}`
(`binance.ts` line 150, `alphavantage.ts` line 66).  The error sentinel
`{s: 'error'}` of `binance.ts` line 165 is represented with the remaining
fields at their defaults. -/
structure CandleResult where
  s : String
  t : List JsNumber := []
  o : List JsNumber := []
  h : List JsNumber := []
  l : List JsNumber := []
  c : List JsNumber := []
  v : List JsNumber := []
  source : String := ""
deriving DecidableEq, Repr

/-- `{s: 'error'}` returned by `BinanceProvider.getCandles` on any caught
failure (`binance.ts` line 165). -/
def errorCandles : CandleResult := { s := "error" }

/-- A record persisted by the Cache Store: payload JSON, expiry instant and
source tag. -/
structure StoredEntry where
  payloadJson : String
  expiresAt : Int
  source : String
deriving DecidableEq, Repr

/-- What `CacheService.getCacheConfig` hands back to adapters: the stored
payload plus the derived staleness flag. -/
structure CacheEntry where
  payloadJson : String
  expiresAt : Int
  isStale : Bool
  source : String
deriving DecidableEq, Repr

/-- The persisted key→payload cache store. -/
abbrev Store := String → Option StoredEntry

/-- Modelled from the spec: `CacheService.getCacheConfig`
(`server/src/services/cache.ts` is not among the sources; spec §3 and §4.1).
A read returns the stored entry with `isStale` derived as `now > expiresAt`
(TTL is the sole staleness signal); the reader itself never throws. -/
def CacheService.getCacheConfig (store : Store) (now : Int) (key : String) :
    Option CacheEntry :=
  (store key).map fun e =>
    { payloadJson := e.payloadJson, expiresAt := e.expiresAt,
      isStale := decide (e.expiresAt < now), source := e.source }

/-- Modelled from the spec: `CacheService.setCacheConfig` (spec §4.1) —
last-writer-wins overwrite of the entry for `key`, expiring `ttl` after
`now`. -/
def CacheService.setCacheConfig (store : Store) (now : Int) (key payload : String)
    (ttl : Int) (src : String) : Store :=
  fun k => if k = key then some ⟨payload, now + ttl, src⟩ else store k

/-- The JS test `cached && !cached.isStale`: a usable (fresh) cache hit. -/
def cacheHit (entry : Option CacheEntry) : Option CacheEntry :=
  match entry with
  | some e => if e.isStale then none else some e
  | none => none

/-- Side effects traced by the embedding. -/
inductive Eff where
  | cacheRead (key : String)
  | cacheWrite (key : String) (ttl : Int) (source : String)
  | restFetch (endpoint symbol : String)
  | wsSend (symbols : List String)
  | wsConnect
  | scheduleBackfill (symbol : String)
deriving DecidableEq, Repr

/-- Number of outbound REST/HTTP calls in a trace. -/
def countRestFetch (tr : List Eff) : Nat :=
  tr.countP fun e =>
    match e with
    | .restFetch _ _ => true
    | _ => false

/-- `true` for the effects that consult or mutate the persisted cache or go
out over REST (as opposed to pure in-process / websocket bookkeeping). -/
def touchesStoreOrRest (e : Eff) : Bool :=
  match e with
  | .cacheRead _ => true
  | .cacheWrite _ _ _ => true
  | .restFetch _ _ => true
  | _ => false

/-- AlphaVantage `GLOBAL_QUOTE` wire object (`data['Global Quote']`).
`price` is `none` when `'05. price'` is absent. -/
structure AvGlobalQuote where
  price : Option String
  change : String
  changePct : String
  latestDay : String
deriving DecidableEq, Repr

/-- Parsed JSON body of an AlphaVantage quote response.  `note` is the truth
of `data['Note'] || data['Information']` (the provider's rate-limit marker). -/
structure AvQuoteWire where
  note : Bool
  quote : Option AvGlobalQuote
deriving DecidableEq, Repr

/-- One dated bar of an AlphaVantage time series.  `c4` is `'4. close'`
(absent in adjusted series), `c4adj` is `'4. adjusted close'`; `v6`/`v5` are
`'6. volume'`/`'5. volume'`. -/
structure AvBar where
  date : String
  o : String
  h : String
  l : String
  c4 : Option String
  c4adj : String
  v6 : Option String
  v5 : String
deriving DecidableEq, Repr

/-- Parsed JSON body of an AlphaVantage candle response; `series` is `none`
when no key contains `'Time Series'` (`Invalid AV format`). -/
structure AvCandleWire where
  note : Bool
  series : Option (List AvBar)
deriving DecidableEq, Repr

/-- Binance `/api/v3/ticker/24hr` wire object. -/
structure RestTicker where
  symbol : String
  lastPrice : String
  priceChange : String
  priceChangePercent : String
  closeTime : Int
deriving DecidableEq, Repr

/-- One Binance kline row `[openTime, open, high, low, close, volume, ...]`. -/
structure Kline where
  openTime : Int
  o : String
  h : String
  l : String
  c : String
  v : String
deriving DecidableEq, Repr

/-- A parsed Binance websocket ticker message
`{e, s, c, p, P, E}` (`binance.ts` line 27). -/
structure TickerMsg where
  e : String
  s : String
  c : String
  p : String
  P : String
  E : Int
deriving DecidableEq, Repr

/-- Finnhub quote wire shape `{c, d, dp, t}`; `d` is nullable
(`market-data.ts` line 17 checks `fhQuote.d === null`). -/
structure FhQuoteWire where
  c : String
  d : Option String
  dp : String
  t : Int
deriving DecidableEq, Repr

/-- Overviews/profiles are opaque JSON objects; modelled as key→value
association lists. -/
abbrev OverviewData := List (String × String)

/-- The environment of one embedded execution: the clock, the JS runtime
functions (`parseFloat`, `JSON.parse`, `JSON.stringify`, `Date`), and the
outcome of every outbound call.  `FinnhubService` (`finnhub.ts`) is not among
the sources; its operations are oracles here, exactly as `fetch` is. -/
structure Env where
  now : Int
  pf : String → JsNumber
  dateMs : String → Int
  parseQuote : String → Option Quote
  parseCandles : String → Option CandleResult
  parseOverview : String → Option OverviewData
  stringifyQuote : Quote → String
  stringifyCandles : CandleResult → String
  stringifyOverview : OverviewData → String
  avQuoteFetch : String → Except String AvQuoteWire
  avCandleFetch : String → Bool → Except String AvCandleWire
  avOverviewFetch : String → Except String OverviewData
  fhQuote : String → Except String (Option FhQuoteWire)
  fhCandles : String → String → Int → Int → Except String CandleResult
  restTicker : String → Except String RestTicker
  restKlines : String → String → Int → Except String (List Kline)

/-- Mutable state threaded through the embedding: the persisted cache store
plus the `BinanceProvider` static fields (`binance.ts` lines 8-11).
`ws = none` means no handle, `some false` connecting, `some true` OPEN. -/
structure St where
  store : Store
  ws : Option Bool := none
  trackedSymbols : List String := []
  memQuote : String → Option Quote := fun _ => none
  memDbWrite : String → Option Int := fun _ => none

/-- JS `s.replace(pat, '')`: remove the first occurrence of `pat`. -/
def replaceFirst (s pat : String) : String :=
  match s.splitOn pat with
  | [] => s
  | [x] => x
  | x :: y :: rest => x ++ String.intercalate pat (y :: rest)

/-- JS falsiness of an optional string field: absent or empty. -/
def jsFalsyStr (s : Option String) : Bool :=
  match s with
  | none => true
  | some str => str = ""

/-- JS `a || b` for an optional string field `a` with fallback `b`. -/
def jsOrStr (a : Option String) (b : String) : String :=
  match a with
  | none => b
  | some s => if s = "" then b else s

/-- Network part of `AlphaVantageProvider.getQuote` (`alphavantage.ts`
lines 14-41): one fetch, rate-limit marker check, `'Global Quote'` extraction,
normalization, 900 s write-through.  Errors rethrow (line 40). -/
def avQuoteNetwork (env : Env) (st : St) (symbol cacheKey : String) :
    Except String Quote × St × List Eff :=
  let tr := [Eff.cacheRead cacheKey, Eff.restFetch "GLOBAL_QUOTE" symbol]
  match env.avQuoteFetch symbol with
  | .error e => (.error e, st, tr)
  | .ok data =>
    if data.note then (.error "API limit reached", st, tr)
    else
      match data.quote with
      | none => (.error "No quote data", st, tr)
      | some q =>
        if jsFalsyStr q.price then (.error "No quote data", st, tr)
        else
          let payload : Quote :=
            { symbol := symbol, assetType := .STOCK,
              price := env.pf (q.price.getD ""),
              changeAbs := env.pf q.change,
              changePct := env.pf (replaceFirst q.changePct "%"),
              ts := env.dateMs q.latestDay,
              source := "ALPHAVANTAGE", isStale := false }
          let store' := CacheService.setCacheConfig st.store env.now cacheKey
            (env.stringifyQuote payload) 900 "ALPHAVANTAGE"
          (.ok payload, { st with store := store' },
            tr ++ [Eff.cacheWrite cacheKey 900 "ALPHAVANTAGE"])

/-- `AlphaVantageProvider.getQuote` (`alphavantage.ts` lines 9-42). -/
def AlphaVantageProvider.getQuote (env : Env) (st : St) (symbol : String) :
    Except String Quote × St × List Eff :=
  let cacheKey := "quote:av:" ++ symbol
  match cacheHit (CacheService.getCacheConfig st.store env.now cacheKey) with
  | some e =>
    match env.parseQuote e.payloadJson with
    | some q => (.ok q, st, [Eff.cacheRead cacheKey])
    | none => (.error "SyntaxError: JSON.parse", st, [Eff.cacheRead cacheKey])
  | none => avQuoteNetwork env st symbol cacheKey

/-- Normalization of an AlphaVantage time series (`alphavantage.ts`
lines 63-75): sort the dates ascending by timestamp, then map each column;
close falls back from `'4. close'` to `'4. adjusted close'` and volume from
`'6. volume'` to `'5. volume'`. -/
def avNormalizeCandles (env : Env) (bars : List AvBar) : CandleResult :=
  let sorted := bars.mergeSort fun a b => env.dateMs a.date ≤ env.dateMs b.date
  { s := "ok",
    t := sorted.map fun b => Int.fdiv (env.dateMs b.date) 1000,
    o := sorted.map fun b => env.pf b.o,
    h := sorted.map fun b => env.pf b.h,
    l := sorted.map fun b => env.pf b.l,
    c := sorted.map fun b => env.pf (jsOrStr b.c4 b.c4adj),
    v := sorted.map fun b => env.pf (jsOrStr b.v6 b.v5),
    source := "ALPHAVANTAGE" }

/-- Network part of `AlphaVantageProvider.getCandles` (`alphavantage.ts`
lines 49-82). -/
def avCandleNetwork (env : Env) (st : St) (symbol : String) (isIntraday : Bool)
    (cacheKey : String) : Except String CandleResult × St × List Eff :=
  let tr := [Eff.cacheRead cacheKey, Eff.restFetch "TIME_SERIES" symbol]
  match env.avCandleFetch symbol isIntraday with
  | .error e => (.error e, st, tr)
  | .ok data =>
    if data.note then (.error "API limit reached", st, tr)
    else
      match data.series with
      | none => (.error "Invalid AV format", st, tr)
      | some bars =>
        let payload := avNormalizeCandles env bars
        let ttl : Int := if isIntraday then 1800 else 86400
        let store' := CacheService.setCacheConfig st.store env.now cacheKey
          (env.stringifyCandles payload) ttl "ALPHAVANTAGE"
        (.ok payload, { st with store := store' },
          tr ++ [Eff.cacheWrite cacheKey ttl "ALPHAVANTAGE"])

/-- `AlphaVantageProvider.getCandles` (`alphavantage.ts` lines 44-83). -/
def AlphaVantageProvider.getCandles (env : Env) (st : St) (symbol : String)
    (isIntraday : Bool) : Except String CandleResult × St × List Eff :=
  let cacheKey := "candle:av:" ++ symbol ++ ":" ++
    (if isIntraday then "intraday" else "daily")
  match cacheHit (CacheService.getCacheConfig st.store env.now cacheKey) with
  | some e =>
    match env.parseCandles e.payloadJson with
    | some p => (.ok p, st, [Eff.cacheRead cacheKey])
    | none => (.error "SyntaxError: JSON.parse", st, [Eff.cacheRead cacheKey])
  | none => avCandleNetwork env st symbol isIntraday cacheKey

/-- Network part of `AlphaVantageProvider.getOverview` (`alphavantage.ts`
lines 90-103). -/
def avOverviewNetwork (env : Env) (st : St) (symbol cacheKey : String) :
    Except String OverviewData × St × List Eff :=
  let tr := [Eff.cacheRead cacheKey, Eff.restFetch "OVERVIEW" symbol]
  match env.avOverviewFetch symbol with
  | .error e => (.error e, st, tr)
  | .ok data =>
    if !(jsFalsyStr (data.lookup "Note")) || !(jsFalsyStr (data.lookup "Information")) then
      (.error "API limit reached", st, tr)
    else if data.length = 0 then (.error "No overview found", st, tr)
    else
      let store' := CacheService.setCacheConfig st.store env.now cacheKey
        (env.stringifyOverview data) (86400 * 7) "ALPHAVANTAGE"
      (.ok data, { st with store := store' },
        tr ++ [Eff.cacheWrite cacheKey (86400 * 7) "ALPHAVANTAGE"])

/-- `AlphaVantageProvider.getOverview` (`alphavantage.ts` lines 85-104). -/
def AlphaVantageProvider.getOverview (env : Env) (st : St) (symbol : String) :
    Except String OverviewData × St × List Eff :=
  let cacheKey := "overview:av:" ++ symbol
  match cacheHit (CacheService.getCacheConfig st.store env.now cacheKey) with
  | some e =>
    match env.parseOverview e.payloadJson with
    | some ov => (.ok ov, st, [Eff.cacheRead cacheKey])
    | none => (.error "SyntaxError: JSON.parse", st, [Eff.cacheRead cacheKey])
  | none => avOverviewNetwork env st symbol cacheKey

/-- `BinanceProvider.trackSymbol` (`binance.ts` lines 79-92): idempotent
addition to the tracked set; incremental subscribe when the socket is OPEN;
`initWebSocket()` when there is no socket handle at all. -/
def BinanceProvider.trackSymbol (st : St) (symbol : String) : St × List Eff :=
  if st.trackedSymbols.contains symbol then (st, [])
  else
    let st1 := { st with trackedSymbols := st.trackedSymbols ++ [symbol] }
    match st.ws with
    | some true => (st1, [Eff.wsSend [symbol]])
    | some false => (st1, [])
    | none => ({ st1 with ws := some false }, [Eff.wsConnect])

/-- The websocket `message` handler of `BinanceProvider.initWebSocket`
(`binance.ts` lines 23-54).  `msg = none` is a JSON.parse failure (ignored);
a `24hrTicker` event updates the hot cache immediately and persists the quote
at most once per 5000 ms per symbol (write throttle). -/
def BinanceProvider.onWsMessage (env : Env) (st : St) (msg : Option TickerMsg) :
    St × List Eff :=
  match msg with
  | none => (st, [])
  | some m =>
    if m.e = "24hrTicker" then
      let payload : Quote :=
        { symbol := m.s, assetType := .CRYPTO,
          price := env.pf m.c, changeAbs := env.pf m.p, changePct := env.pf m.P,
          ts := m.E, source := "BINANCE_WS", isStale := false }
      let key := "quote:" ++ m.s
      let st1 := { st with
        memQuote := fun k => if k = key then some payload else st.memQuote k }
      let lastDbWrite := (st.memDbWrite ("dbwrite:" ++ m.s)).getD 0
      if 5000 < env.now - lastDbWrite then
        ({ st1 with
            store := CacheService.setCacheConfig st1.store env.now key
              (env.stringifyQuote payload) 60 "BINANCE_WS",
            memDbWrite := fun k =>
              if k = "dbwrite:" ++ m.s then some env.now else st1.memDbWrite k },
          [Eff.cacheWrite key 60 "BINANCE_WS"])
      else (st1, [])
    else (st, [])

/-- `BinanceProvider.getQuote` (`binance.ts` lines 94-135): track the symbol,
then hot cache → persisted cache (fresh) → one REST call; on REST failure a
persisted-but-stale entry is served with `isStale := true`; otherwise the
hard failure `'No crypto quote available'`. -/
def BinanceProvider.getQuote (env : Env) (st : St) (symbol : String) :
    Except String Quote × St × List Eff :=
  let tracked := BinanceProvider.trackSymbol st symbol
  let st1 := tracked.1
  let tr0 := tracked.2
  let key := "quote:" ++ symbol
  match st1.memQuote key with
  | some mem => (.ok mem, st1, tr0)
  | none =>
    let cached := CacheService.getCacheConfig st1.store env.now key
    let tr1 := tr0 ++ [Eff.cacheRead key]
    match cacheHit cached with
    | some e =>
      match env.parseQuote e.payloadJson with
      | some q => (.ok q, st1, tr1)
      | none => (.error "SyntaxError: JSON.parse", st1, tr1)
    | none =>
      let tr2 := tr1 ++ [Eff.restFetch "ticker/24hr" symbol]
      match env.restTicker symbol with
      | .ok d =>
        let payload : Quote :=
          { symbol := d.symbol, assetType := .CRYPTO,
            price := env.pf d.lastPrice,
            changeAbs := env.pf d.priceChange,
            changePct := env.pf d.priceChangePercent,
            ts := d.closeTime, source := "BINANCE_REST", isStale := false }
        let store' := CacheService.setCacheConfig st1.store env.now key
          (env.stringifyQuote payload) 60 "BINANCE_REST"
        (.ok payload, { st1 with store := store' },
          tr2 ++ [Eff.cacheWrite key 60 "BINANCE_REST"])
      | .error _ =>
        match cached with
        | some e =>
          match env.parseQuote e.payloadJson with
          | some stale => (.ok { stale with isStale := true }, st1, tr2)
          | none => (.error "SyntaxError: JSON.parse", st1, tr2)
        | none => (.error "No crypto quote available", st1, tr2)

/-- Cache key of `BinanceProvider.getCandles` (`binance.ts` line 139). -/
def binanceCandleKey (symbol interval : String) (limit : Int) : String :=
  "candle:binance:" ++ symbol ++ ":" ++ interval ++ ":" ++ toString limit

/-- `BinanceProvider.getCandles` (`binance.ts` lines 137-167): fresh cache hit
is parsed and returned (the `JSON.parse` on this path is outside the
`try`/`catch`); otherwise one klines REST call, normalized and cached for
300 s; any failure inside the `try` yields `{s: 'error'}`. -/
def BinanceProvider.getCandles (env : Env) (st : St) (symbol interval : String)
    (limit : Int) : Except String CandleResult × St × List Eff :=
  let cacheKey := binanceCandleKey symbol interval limit
  match cacheHit (CacheService.getCacheConfig st.store env.now cacheKey) with
  | some e =>
    match env.parseCandles e.payloadJson with
    | some p => (.ok p, st, [Eff.cacheRead cacheKey])
    | none => (.error "SyntaxError: JSON.parse", st, [Eff.cacheRead cacheKey])
  | none =>
    let tr := [Eff.cacheRead cacheKey, Eff.restFetch "klines" symbol]
    match env.restKlines symbol interval limit with
    | .error _ => (.ok errorCandles, st, tr)
    | .ok data =>
      let payload : CandleResult :=
        { s := "ok",
          t := data.map fun k => Int.fdiv k.openTime 1000,
          o := data.map fun k => env.pf k.o,
          h := data.map fun k => env.pf k.h,
          l := data.map fun k => env.pf k.l,
          c := data.map fun k => env.pf k.c,
          v := data.map fun k => env.pf k.v,
          source := "BINANCE_REST" }
      let store' := CacheService.setCacheConfig st.store env.now cacheKey
        (env.stringifyCandles payload) 300 "BINANCE_REST"
      (.ok payload, { st with store := store' },
        tr ++ [Eff.cacheWrite cacheKey 300 "BINANCE_REST"])

/-- `MarketData.getQuote` (`market-data.ts` lines 7-31): CRYPTO delegates to
`BinanceProvider`; STOCK tries AlphaVantage, then falls back to Finnhub and
re-normalizes `{c, d, dp, t}` into the canonical `Quote` with source
`'FINNHUB'`; an absent Finnhub result or a null `d` throws
`'All providers failed for quote'`. -/
def MarketData.getQuote (env : Env) (st : St) (symbol : String)
    (assetType : AssetType) : Except String Quote × St × List Eff :=
  match assetType with
  | .CRYPTO => BinanceProvider.getQuote env st symbol
  | .STOCK =>
    match AlphaVantageProvider.getQuote env st symbol with
    | (.ok q, st1, tr1) => (.ok q, st1, tr1)
    | (.error _, st1, tr1) =>
      let tr2 := tr1 ++ [Eff.restFetch "finnhub/quote" symbol]
      match env.fhQuote symbol with
      | .error e => (.error e, st1, tr2)
      | .ok none => (.error "All providers failed for quote", st1, tr2)
      | .ok (some fq) =>
        match fq.d with
        | none => (.error "All providers failed for quote", st1, tr2)
        | some d =>
          (.ok { symbol := symbol, assetType := .STOCK,
                 price := env.pf fq.c, changeAbs := env.pf d,
                 changePct := env.pf fq.dp, ts := fq.t,
                 source := "FINNHUB", isStale := false }, st1, tr2)

/-- The crypto range→(interval, limit) lookup table of `MarketData.getCandles`
(`market-data.ts` lines 36-43), as the JS `map[rangeStr]` lookup. -/
def cryptoRangeMap (r : String) : Option (String × Int) :=
  if r = "1d" then some ("15m", 96)
  else if r = "1w" then some ("1h", 168)
  else if r = "1m" then some ("4h", 180)
  else if r = "3m" then some ("1d", 90)
  else if r = "6m" then some ("1d", 180)
  else if r = "1y" then some ("1d", 365)
  else none

/-- `MarketData.getCandles` (`market-data.ts` lines 33-68): CRYPTO maps the
range token through `cryptoRangeMap` (`map[rangeStr] || map['6m']`); STOCK
tries AlphaVantage and on failure recomputes an explicit Finnhub window. -/
def MarketData.getCandles (env : Env) (st : St) (symbol : String)
    (assetType : AssetType) (rangeStr : String) :
    Except String CandleResult × St × List Eff :=
  match assetType with
  | .CRYPTO =>
    let config := (cryptoRangeMap rangeStr).getD ("1d", 180)
    BinanceProvider.getCandles env st symbol config.1 config.2
  | .STOCK =>
    let isIntraday := ["1d", "1w"].contains rangeStr
    match AlphaVantageProvider.getCandles env st symbol isIntraday with
    | (.ok p, st1, tr1) => (.ok p, st1, tr1)
    | (.error _, st1, tr1) =>
      let toT := Int.fdiv env.now 1000
      let win : Int × String :=
        if rangeStr = "1m" then (toT - 30 * 24 * 60 * 60, "D")
        else if rangeStr = "1y" then (toT - 365 * 24 * 60 * 60, "D")
        else if isIntraday then (toT - 7 * 24 * 60 * 60, "60")
        else (toT - 180 * 24 * 60 * 60, "D")
      let tr2 := tr1 ++ [Eff.restFetch "finnhub/candles" symbol]
      match env.fhCandles symbol win.2 win.1 toT with
      | .error e => (.error e, st1, tr2)
      | .ok p => (.ok p, st1, tr2)

/-- One row of the `priceHistory` table (`PriceHistoryRow`): unique per
`(symbol, date)`.  Dates are day numbers (the `YYYY-MM-DD` date strings of the
source compare like their day numbers). -/
structure PriceRow where
  symbol : String
  date : Int
  assetType : AssetType
  «open» : JsNumber
  high : JsNumber
  low : JsNumber
  close : JsNumber
  volume : JsNumber
deriving DecidableEq, Repr

/-- The `(symbol, date)` upsert key of a row. -/
def keyOf (r : PriceRow) : String × Int := (r.symbol, r.date)

/-- The database-level uniqueness constraint on `(symbol, date)`. -/
def UniqueKeys (db : List PriceRow) : Prop :=
  db.Pairwise fun a b => keyOf a ≠ keyOf b

/-- Number of rows with upsert key `k`. -/
def countKey (db : List PriceRow) (k : String × Int) : Nat :=
  db.countP fun r => decide (keyOf r = k)

/-- `prisma.priceHistory.upsert` (`price-history.ts` lines 24-44 and 66-85):
if a row with the key of `newRow` exists, apply the `update` clause `upd` to
it; otherwise `create` `newRow`. -/
def prismaUpsert (upd : PriceRow → PriceRow) (newRow : PriceRow)
    (db : List PriceRow) : List PriceRow :=
  if db.any (fun r => decide (keyOf r = keyOf newRow)) then
    db.map fun r => if keyOf r = keyOf newRow then upd r else r
  else db ++ [newRow]

/-- The `update` clause of `backfillSymbol`'s upsert (`price-history.ts`
lines 26-33): sets the candle fields and `assetType`, leaves the key. -/
def updBackfill (assetType : AssetType) (o h l c v : JsNumber) (r : PriceRow) :
    PriceRow :=
  { r with assetType := assetType, «open» := o, high := h, low := l,
           close := c, volume := v }

/-- The `update` clause of `appendLatestCandle`'s upsert (`price-history.ts`
lines 68-74): sets the candle fields only. -/
def updAppend (o h l c v : JsNumber) (r : PriceRow) : PriceRow :=
  { r with «open» := o, high := h, low := l, close := c, volume := v }

/-- Environment of one `PriceHistoryService` call: the clock (as a day
number), the date arithmetic of the source, the per-row persistence failures,
and the outcome of the `MarketData.getCandles` call for each range token. -/
structure HEnv where
  today : Int
  tsToDate : Int → Int
  dateToTs : Int → Int
  rowFails : Nat → Bool
  appendFails : Bool
  live : String → Except String CandleResult

/-- One iteration of the backfill loop (`price-history.ts` lines 21-49): row
`i` is upserted unless its persistence fails, in which case it is skipped and
the batch continues; `inserted` counts the successes. -/
def backfillStep (env : HEnv) (symbol : String) (assetType : AssetType)
    (cd : CandleResult) (acc : Nat × List PriceRow) (i : Nat) :
    Nat × List PriceRow :=
  if env.rowFails i then acc
  else
    let date := env.tsToDate (cd.t.getD i 0)
    let row : PriceRow :=
      { symbol := symbol, date := date, assetType := assetType,
        «open» := cd.o.getD i 0, high := cd.h.getD i 0, low := cd.l.getD i 0,
        close := cd.c.getD i 0, volume := cd.v.getD i 0 }
    (acc.1 + 1,
      prismaUpsert
        (updBackfill assetType (cd.o.getD i 0) (cd.h.getD i 0) (cd.l.getD i 0)
          (cd.c.getD i 0) (cd.v.getD i 0)) row acc.2)

/-- `PriceHistoryService.backfillSymbol` (`price-history.ts` lines 11-53):
fetch the 2-year window, bail out with 0 on no usable data, else upsert one
row per candle, skipping individually failing rows, and return the success
count.  A rejected fetch propagates (the `await` is outside any `try`). -/
def PriceHistoryService.backfillSymbol (env : HEnv) (db : List PriceRow)
    (symbol : String) (assetType : AssetType) :
    Except String (Nat × List PriceRow) :=
  match env.live "2y" with
  | .error e => .error e
  | .ok cd =>
    if cd.s ≠ "ok" ∨ cd.c.length = 0 then .ok (0, db)
    else .ok ((List.range cd.t.length).foldl
      (backfillStep env symbol assetType cd) (0, db))

/-- `PriceHistoryService.appendLatestCandle` (`price-history.ts`
lines 58-90): fetch a 5-day window and upsert only the last bar; every
failure is caught and leaves the table unchanged. -/
def PriceHistoryService.appendLatestCandle (env : HEnv) (db : List PriceRow)
    (symbol : String) (assetType : AssetType) : List PriceRow :=
  match env.live "5d" with
  | .error _ => db
  | .ok cd =>
    if cd.s ≠ "ok" ∨ cd.c.length = 0 then db
    else
      let i := cd.c.length - 1
      let date := env.tsToDate (cd.t.getD i 0)
      if env.appendFails then db
      else
        prismaUpsert
          (updAppend (cd.o.getD i 0) (cd.h.getD i 0) (cd.l.getD i 0)
            (cd.c.getD i 0) (cd.v.getD i 0))
          { symbol := symbol, date := date, assetType := assetType,
            «open» := cd.o.getD i 0, high := cd.h.getD i 0,
            low := cd.l.getD i 0, close := cd.c.getD i 0,
            volume := cd.v.getD i 0 } db

/-- `prisma.priceHistory.findMany({where: {symbol, date: {gte: cutoff}},
orderBy: {date: 'asc'}})` (`price-history.ts` lines 101-104). -/
def priceHistoryFindMany (db : List PriceRow) (symbol : String) (cutoff : Int) :
    List PriceRow :=
  (db.filter fun r => r.symbol == symbol && decide (cutoff ≤ r.date)).mergeSort
    fun a b => a.date ≤ b.date

/-- `PriceHistoryService.getCandles` (`price-history.ts` lines 96-130): read
rows dated on or after `today - days` ascending; with fewer than 20 rows,
fall back to the router's live series, schedule (without awaiting) a
background `backfillSymbol`, and return the live series; if the live fetch
fails or has no usable data, return `null`.  The caller never sees a throw. -/
def PriceHistoryService.getCandles (env : HEnv) (db : List PriceRow)
    (symbol : String) (assetType : AssetType) (days : Int) :
    Option CandleResult × List Eff :=
  let cutoff := env.today - days
  let rows := priceHistoryFindMany db symbol cutoff
  if rows.length < 20 then
    match env.live (if 365 ≤ days then "2y" else if 180 ≤ days then "6m" else "3m") with
    | .ok cd =>
      if cd.s == "ok" && decide (0 < cd.c.length) then
        (some cd, [Eff.scheduleBackfill symbol])
      else (none, [])
    | .error _ => (none, [])
  else
    (some { s := "ok",
            c := rows.map (·.close), h := rows.map (·.high),
            l := rows.map (·.low), o := rows.map (·.«open»),
            v := rows.map (·.volume),
            t := rows.map fun r => env.dateToTs r.date }, [])

/-- `JobState.status` (`routes.ts` / spec §3). -/
inductive JobStatus where
  | IDLE
  | RUNNING
  | DONE
  | ERROR
deriving DecidableEq, Repr

/-- Interleaved state of two concurrent `POST /api/admin/screener/run`
requests for the same universe (`routes.ts` lines 473-492).  `status` is the
persisted `JobState` row (`none` = no row); `readK` is what request `K`'s
`findUnique` returned (`none` = not yet resolved); `respK` is its HTTP
outcome (`some true` = job queued, `some false` = 409 conflict); `queued`
lists the `setImmediate`-deferred job bodies not yet started. -/
structure RaceState where
  status : Option JobStatus
  read1 : Option (Option JobStatus) := none
  read2 : Option (Option JobStatus) := none
  resp1 : Option Bool := none
  resp2 : Option Bool := none
  queued : List (Fin 2) := []
deriving DecidableEq, Repr

/-- Atomic steps of the interleaving: each request's `findUnique` resolution,
its synchronous check-and-queue segment, and the deferred job body start. -/
inductive RaceAct where
  | read1
  | read2
  | decide1
  | decide2
  | startJob1
  | startJob2
deriving DecidableEq, Repr

/-- One atomic step.  `readK` records the persisted status as observed by
request `K`.  `decideK` is the handler's synchronous segment after the await
(`routes.ts` lines 481-491): a 409 only when the observed status is RUNNING,
else the job body is queued via `setImmediate`.  `startJobK` is the deferred
job body; modelled from the spec: `ScreenerService.runScreenerJob`
(`screener.ts`) is not among the sources, and per spec §4.7 it persists
RUNNING before the job body executes. -/
def raceStep (s : RaceState) (a : RaceAct) : RaceState :=
  match a with
  | .read1 => if s.read1.isNone then { s with read1 := some s.status } else s
  | .read2 => if s.read2.isNone then { s with read2 := some s.status } else s
  | .decide1 =>
    match s.read1, s.resp1 with
    | some obs, none =>
      if obs = some JobStatus.RUNNING then { s with resp1 := some false }
      else { s with resp1 := some true, queued := s.queued ++ [0] }
    | _, _ => s
  | .decide2 =>
    match s.read2, s.resp2 with
    | some obs, none =>
      if obs = some JobStatus.RUNNING then { s with resp2 := some false }
      else { s with resp2 := some true, queued := s.queued ++ [1] }
    | _, _ => s
  | .startJob1 =>
    if s.queued.contains 0 then { s with status := some JobStatus.RUNNING } else s
  | .startJob2 =>
    if s.queued.contains 1 then { s with status := some JobStatus.RUNNING } else s

/-- Run the two concurrent screener-run requests under a given interleaving
of their atomic steps, starting from a persisted status. -/
def screenerRace (init : Option JobStatus) (sched : List RaceAct) : RaceState :=
  sched.foldl raceStep { status := init }

/-- A baseline environment for concrete executions: every upstream call
fails, nothing parses, the clock reads 0. -/
def wEnv : Env :=
  { now := 0, pf := fun _ => 0, dateMs := fun _ => 0,
    parseQuote := fun _ => none, parseCandles := fun _ => none,
    parseOverview := fun _ => none,
    stringifyQuote := fun _ => "", stringifyCandles := fun _ => "",
    stringifyOverview := fun _ => "",
    avQuoteFetch := fun _ => .error "HTTP 500",
    avCandleFetch := fun _ _ => .error "HTTP 500",
    avOverviewFetch := fun _ => .error "HTTP 500",
    fhQuote := fun _ => .error "HTTP 500",
    fhCandles := fun _ _ _ _ => .error "HTTP 500",
    restTicker := fun _ => .error "HTTP 500",
    restKlines := fun _ _ _ => .error "HTTP 500" }

/-- A baseline state: empty persisted cache, no websocket, nothing tracked. -/
def wSt : St := { store := fun _ => none }

/-- `trackSymbol` only touches the tracked set and the socket handle: the hot
cache, the throttle map and the persisted store are untouched, and its trace
never reads the store or goes over REST. -/
theorem trackSymbol_preserves_caches (st : St) (symbol : String) :
    (BinanceProvider.trackSymbol st symbol).1.memQuote = st.memQuote ∧
    (BinanceProvider.trackSymbol st symbol).1.store = st.store ∧
    (((BinanceProvider.trackSymbol st symbol).2.all
        fun e => !touchesStoreOrRest e) = true) := by
  unfold BinanceProvider.trackSymbol
  cases h : st.trackedSymbols.contains symbol
  · rcases hws : st.ws with _ | b
    · simp [h, hws, touchesStoreOrRest]
    · cases b <;> simp [h, hws, touchesStoreOrRest]
  · simp [h]

/-- C1: the claim asserts that the persisted `JobState` check and the
transition to RUNNING are atomic, so that no interleaving of two concurrent
`POST /api/admin/screener/run` requests lets both callers observe a
non-RUNNING state and both proceed.  The handler (`routes.ts` lines 473-492)
instead does a plain `findUnique` read followed by a `setImmediate`-deferred
job start: under the interleaving read₁, read₂, decide₁, decide₂ from an IDLE
persisted status, both requests observe IDLE and both are granted. -/
theorem screener_run_race_both_granted :
    (screenerRace (some JobStatus.IDLE)
      [RaceAct.read1, RaceAct.read2, RaceAct.decide1, RaceAct.decide2]).resp1 =
        some true ∧
    (screenerRace (some JobStatus.IDLE)
      [RaceAct.read1, RaceAct.read2, RaceAct.decide1, RaceAct.decide2]).resp2 =
        some true := by
  constructor <;> rfl

/-- C4: the crypto range token is mapped by the fixed table
1d→(15m,96), 1w→(1h,168), 1m→(4h,180), 3m→(1d,90), 6m→(1d,180), 1y→(1d,365),
and every token outside the table makes `MarketData.getCandles` behave
identically to the `6m` mapping. -/
theorem crypto_range_map_table_and_default :
    cryptoRangeMap "1d" = some ("15m", 96) ∧
    cryptoRangeMap "1w" = some ("1h", 168) ∧
    cryptoRangeMap "1m" = some ("4h", 180) ∧
    cryptoRangeMap "3m" = some ("1d", 90) ∧
    cryptoRangeMap "6m" = some ("1d", 180) ∧
    cryptoRangeMap "1y" = some ("1d", 365) ∧
    ∀ r, r ∉ ["1d", "1w", "1m", "3m", "6m", "1y"] →
      ∀ env st symbol,
        MarketData.getCandles env st symbol .CRYPTO r =
          MarketData.getCandles env st symbol .CRYPTO "6m" := by
  refine ⟨rfl, rfl, rfl, rfl, rfl, rfl, ?_⟩
  intro r hr env st symbol
  simp only [List.mem_cons, List.not_mem_nil, or_false, not_or] at hr
  obtain ⟨h1, h2, h3, h4, h5, h6⟩ := hr
  simp [MarketData.getCandles, cryptoRangeMap, h1, h2, h3, h4, h5, h6]

/-- Witness for C4 at the unrecognized token `"5y"`. -/
theorem crypto_range_map_table_and_default_witness :
    MarketData.getCandles wEnv wSt "BTCUSDT" .CRYPTO "5y" =
      MarketData.getCandles wEnv wSt "BTCUSDT" .CRYPTO "6m" :=
  crypto_range_map_table_and_default.2.2.2.2.2.2 "5y" (by decide) wEnv wSt "BTCUSDT"

/-- C10: a hot-cache hit of `BinanceProvider.getQuote` is returned exactly as
stored — whatever its age or staleness flag — and the call neither reads or
writes the persisted cache nor issues any REST call. -/
theorem binance_quote_hot_cache_exact :
    ∀ env st symbol q, st.memQuote ("quote:" ++ symbol) = some q →
      (BinanceProvider.getQuote env st symbol).1 = .ok q ∧
      (((BinanceProvider.getQuote env st symbol).2.2.all
          fun e => !touchesStoreOrRest e) = true) := by
  intro env st symbol q hq
  have h := trackSymbol_preserves_caches st symbol
  simp only [BinanceProvider.getQuote, h.1, hq]
  exact ⟨trivial, h.2.2⟩

/-- A hot-cache quote already marked stale, for the C10 witness. -/
def c10Quote : Quote := ⟨"BTCUSDT", .CRYPTO, 43000, -10, -1, 5, "BINANCE_WS", true⟩

/-- A state whose hot cache holds `c10Quote` for BTCUSDT. -/
def c10St : St :=
  { wSt with memQuote := fun k => if k = "quote:BTCUSDT" then some c10Quote else none }

/-- Witness for C10: a stale-marked hot-cache entry is still returned as is. -/
theorem binance_quote_hot_cache_exact_witness :
    (BinanceProvider.getQuote wEnv c10St "BTCUSDT").1 = .ok c10Quote :=
  (binance_quote_hot_cache_exact wEnv c10St "BTCUSDT" c10Quote (by decide)).1

/-- A state whose persisted cache holds a fresh but unparseable payload for
the BTCUSDT daily-candle key, for the C9 counterexample. -/
def c9Entry : StoredEntry := ⟨"corrupt", 100, "BINANCE_REST"⟩

def c9St : St :=
  { wSt with store := fun k =>
      if k = "candle:binance:BTCUSDT:1d:180" then some c9Entry else none }

/-- Counterexample to C9 as stated: with a fresh persisted cache entry whose
payload does not parse, `BinanceProvider.getCandles` throws (the `JSON.parse`
on the cache-hit path, `binance.ts` line 142, is outside the `try`/`catch`)
instead of returning `{s: 'error'}`. -/
theorem binance_candles_reject_on_malformed_cache :
    (BinanceProvider.getCandles wEnv c9St "BTCUSDT" "1d" 180).1 =
      .error "SyntaxError: JSON.parse" := by
  rfl

/-- `true` when a call returned a value rather than throwing. -/
def exceptIsOk {α : Type} (x : Except String α) : Bool :=
  match x with
  | .ok _ => true
  | .error _ => false

/-- C9 as amended: provided any fresh cached payload for the requested key
parses, `BinanceProvider.getCandles` always returns a value, and every
failure on the network path (fetch, HTTP status, body parse — all folded into
the klines oracle) yields `{s: 'error'}` rather than a thrown error. -/
theorem binance_candles_total_amended :
    ∀ env st symbol interval limit,
      (∀ se, st.store (binanceCandleKey symbol interval limit) = some se →
        ¬ se.expiresAt < env.now → (env.parseCandles se.payloadJson).isSome) →
      exceptIsOk (BinanceProvider.getCandles env st symbol interval limit).1 = true ∧
      (∀ err,
        cacheHit (CacheService.getCacheConfig st.store env.now
          (binanceCandleKey symbol interval limit)) = none →
        env.restKlines symbol interval limit = .error err →
        (BinanceProvider.getCandles env st symbol interval limit).1 =
          .ok errorCandles) := by
  intro env st symbol interval limit hparse
  constructor
  · rcases hstore : st.store (binanceCandleKey symbol interval limit) with _ | se
    · simp only [BinanceProvider.getCandles, CacheService.getCacheConfig, hstore,
        Option.map_none', cacheHit]
      rcases hk : env.restKlines symbol interval limit with e | data <;>
        simp [hk, exceptIsOk]
    · by_cases hfresh : se.expiresAt < env.now
      · simp only [BinanceProvider.getCandles, CacheService.getCacheConfig, hstore,
          Option.map_some', cacheHit, decide_eq_true_eq, if_pos hfresh]
        rcases hk : env.restKlines symbol interval limit with e | data <;>
          simp [hk, exceptIsOk]
      · rcases hp : env.parseCandles se.payloadJson with _ | p
        · exact absurd (hparse se hstore hfresh) (by simp [hp])
        · simp [BinanceProvider.getCandles, CacheService.getCacheConfig, hstore,
            cacheHit, hfresh, hp, exceptIsOk]
  · intro err hmiss hk
    simp [BinanceProvider.getCandles, hmiss, hk]

/-- Witness for the amended C9: empty cache, failing klines endpoint — the
call returns `{s: 'error'}`. -/
theorem binance_candles_total_amended_witness :
    (BinanceProvider.getCandles wEnv wSt "BTCUSDT" "1d" 180).1 =
      .ok errorCandles :=
  (binance_candles_total_amended wEnv wSt "BTCUSDT" "1d" 180
    (by intro se h; simp [wSt] at h)).2 "HTTP 500" rfl rfl

/-- A trace of pure in-process effects contains no REST call. -/
theorem countRestFetch_eq_zero_of_clean (tr : List Eff)
    (h : (tr.all fun e => !touchesStoreOrRest e) = true) :
    countRestFetch tr = 0 := by
  rw [countRestFetch, List.countP_eq_zero]
  intro a ha
  have := (List.all_eq_true.mp h) a ha
  cases a <;> simp_all [touchesStoreOrRest]

/-- C2: on a present, unexpired cache entry every adapter operation
(AlphaVantage `getQuote`/`getCandles`/`getOverview`, Binance `getCandles`)
returns the parsed cached payload with an unchanged state and a trace that is
exactly the cache read — no outbound call is made, and the TTL-derived
`isStale` flag (`now > expiresAt`) is the only staleness criterion the
adapters consult. -/
theorem adapter_cache_hit_no_network :
    (∀ env st symbol se p,
      st.store ("quote:av:" ++ symbol) = some se →
      ¬ se.expiresAt < env.now →
      env.parseQuote se.payloadJson = some p →
      AlphaVantageProvider.getQuote env st symbol =
        (.ok p, st, [Eff.cacheRead ("quote:av:" ++ symbol)])) ∧
    (∀ env st symbol isIntraday se p,
      st.store ("candle:av:" ++ symbol ++ ":" ++
        (if isIntraday then "intraday" else "daily")) = some se →
      ¬ se.expiresAt < env.now →
      env.parseCandles se.payloadJson = some p →
      AlphaVantageProvider.getCandles env st symbol isIntraday =
        (.ok p, st, [Eff.cacheRead ("candle:av:" ++ symbol ++ ":" ++
          (if isIntraday then "intraday" else "daily"))])) ∧
    (∀ env st symbol se ov,
      st.store ("overview:av:" ++ symbol) = some se →
      ¬ se.expiresAt < env.now →
      env.parseOverview se.payloadJson = some ov →
      AlphaVantageProvider.getOverview env st symbol =
        (.ok ov, st, [Eff.cacheRead ("overview:av:" ++ symbol)])) ∧
    (∀ env st symbol interval limit se p,
      st.store (binanceCandleKey symbol interval limit) = some se →
      ¬ se.expiresAt < env.now →
      env.parseCandles se.payloadJson = some p →
      BinanceProvider.getCandles env st symbol interval limit =
        (.ok p, st, [Eff.cacheRead (binanceCandleKey symbol interval limit)])) := by
  refine ⟨?_, ?_, ?_, ?_⟩
  · intro env st symbol se p hstore hfresh hparse
    simp [AlphaVantageProvider.getQuote, CacheService.getCacheConfig, cacheHit,
      hstore, hfresh, hparse]
  · intro env st symbol isIntraday se p hstore hfresh hparse
    simp [AlphaVantageProvider.getCandles, CacheService.getCacheConfig, cacheHit,
      hstore, hfresh, hparse]
  · intro env st symbol se ov hstore hfresh hparse
    simp [AlphaVantageProvider.getOverview, CacheService.getCacheConfig, cacheHit,
      hstore, hfresh, hparse]
  · intro env st symbol interval limit se p hstore hfresh hparse
    simp [BinanceProvider.getCandles, CacheService.getCacheConfig, cacheHit,
      hstore, hfresh, hparse]

/-- The quote payload parsed out of the cached entry in the C2 witness. -/
def c2Quote : Quote := ⟨"AAPL", .STOCK, 190, 2, 1, 1700000000, "ALPHAVANTAGE", false⟩

/-- A stored entry that is still fresh at `wEnv.now = 0`. -/
def c2Entry : StoredEntry := ⟨"cached-json", 100, "ALPHAVANTAGE"⟩

def c2Env : Env := { wEnv with parseQuote := fun _ => some c2Quote }

def c2St : St :=
  { wSt with store := fun k => if k = "quote:av:AAPL" then some c2Entry else none }

/-- Witness for C2: a fresh cached AlphaVantage quote is served from the
cache with no network call. -/
theorem adapter_cache_hit_no_network_witness :
    AlphaVantageProvider.getQuote c2Env c2St "AAPL" =
      (.ok c2Quote, c2St, [Eff.cacheRead ("quote:av:" ++ "AAPL")]) :=
  adapter_cache_hit_no_network.1 c2Env c2St "AAPL" c2Entry c2Quote
    (by decide) (by decide) rfl

/-- C5: when the hot cache has nothing for a crypto symbol and the persisted
entry is absent or stale, `BinanceProvider.getQuote` makes exactly one REST
call; if that call fails and a (necessarily stale) persisted entry exists,
its payload is served with `isStale := true` instead of failing; the hard
failure `'No crypto quote available'` occurs only with no hot entry, no
persisted entry and a failed REST call. -/
theorem binance_quote_rest_fallback :
    ∀ env st symbol,
      st.memQuote ("quote:" ++ symbol) = none →
      ((st.store ("quote:" ++ symbol) = none ∨
        ∃ se, st.store ("quote:" ++ symbol) = some se ∧ se.expiresAt < env.now) →
        countRestFetch (BinanceProvider.getQuote env st symbol).2.2 = 1) ∧
      (∀ se q err,
        st.store ("quote:" ++ symbol) = some se →
        se.expiresAt < env.now →
        env.restTicker symbol = .error err →
        env.parseQuote se.payloadJson = some q →
        (BinanceProvider.getQuote env st symbol).1 = .ok { q with isStale := true }) ∧
      (∀ err,
        st.store ("quote:" ++ symbol) = none →
        env.restTicker symbol = .error err →
        (BinanceProvider.getQuote env st symbol).1 =
          .error "No crypto quote available") := by
  intro env st symbol hmem
  have h := trackSymbol_preserves_caches st symbol
  have hclean := countRestFetch_eq_zero_of_clean _ h.2.2
  refine ⟨?_, ?_, ?_⟩
  · intro hmiss
    have hhit : cacheHit (CacheService.getCacheConfig
        (BinanceProvider.trackSymbol st symbol).1.store env.now ("quote:" ++ symbol)) = none := by
      rcases hmiss with hnone | ⟨se, hse, hstale⟩
      · simp [CacheService.getCacheConfig, cacheHit, h.2.1, hnone]
      · simp [CacheService.getCacheConfig, cacheHit, h.2.1, hse, hstale]
    simp only [countRestFetch] at hclean
    simp only [BinanceProvider.getQuote, h.1, hmem, hhit]
    rcases hk : env.restTicker symbol with e | d
    · rcases hc : CacheService.getCacheConfig
          (BinanceProvider.trackSymbol st symbol).1.store env.now
          ("quote:" ++ symbol) with _ | ce
      · simp [hk, hc, countRestFetch, List.countP_append, List.countP_cons, hclean]
      · rcases hp : env.parseQuote ce.payloadJson with _ | q <;>
          simp [hk, hc, hp, countRestFetch, List.countP_append, List.countP_cons,
            hclean]
    · simp [hk, countRestFetch, List.countP_append, List.countP_cons, hclean]
  · intro se q err hse hstale hrest hparse
    have hcached : CacheService.getCacheConfig
        (BinanceProvider.trackSymbol st symbol).1.store env.now ("quote:" ++ symbol) =
        some ⟨se.payloadJson, se.expiresAt, true, se.source⟩ := by
      simp [CacheService.getCacheConfig, h.2.1, hse, hstale]
    simp [BinanceProvider.getQuote, h.1, hmem, hcached, cacheHit, hrest, hparse]
  · intro err hnone hrest
    have hcached : CacheService.getCacheConfig
        (BinanceProvider.trackSymbol st symbol).1.store env.now ("quote:" ++ symbol) = none := by
      simp [CacheService.getCacheConfig, h.2.1, hnone]
    simp [BinanceProvider.getQuote, h.1, hmem, hcached, cacheHit, hrest]

/-- The quote parsed out of the stale persisted entry in the C5 witness. -/
def c5Quote : Quote := ⟨"BTCUSDT", .CRYPTO, 42000, 100, 1, 3, "BINANCE_REST", false⟩

/-- A stored entry already expired at `wEnv.now = 0`. -/
def c5Entry : StoredEntry := ⟨"stale-json", -5, "BINANCE_REST"⟩

def c5Env : Env := { wEnv with parseQuote := fun _ => some c5Quote }

def c5St : St :=
  { wSt with store := fun k => if k = "quote:BTCUSDT" then some c5Entry else none }

/-- Witness for C5: hot-cache miss, stale persisted entry, failing REST — the
stale payload is served with `isStale := true`. -/
theorem binance_quote_rest_fallback_witness :
    (BinanceProvider.getQuote c5Env c5St "BTCUSDT").1 =
      .ok { c5Quote with isStale := true } :=
  (binance_quote_rest_fallback c5Env c5St "BTCUSDT" rfl).2.1 c5Entry c5Quote
    "HTTP 500" (by decide) (by decide) rfl rfl

/-- C3: for a STOCK symbol whose AlphaVantage quote path throws,
`MarketData.getQuote` returns the Finnhub wire shape re-normalized into the
canonical `Quote` with source `'FINNHUB'`; if the secondary also fails, or
returns the sentinel no-data value (absent result or null `d`), the call
raises a single failure and never returns a partial quote. -/
theorem stock_quote_finnhub_fallback :
    ∀ env st symbol err st1 tr1,
      AlphaVantageProvider.getQuote env st symbol = (.error err, st1, tr1) →
      (∀ fq d, env.fhQuote symbol = .ok (some fq) → fq.d = some d →
        (MarketData.getQuote env st symbol .STOCK).1 =
          .ok { symbol := symbol, assetType := .STOCK, price := env.pf fq.c,
                changeAbs := env.pf d, changePct := env.pf fq.dp, ts := fq.t,
                source := "FINNHUB", isStale := false }) ∧
      (∀ e2, env.fhQuote symbol = .error e2 →
        (MarketData.getQuote env st symbol .STOCK).1 = .error e2) ∧
      (env.fhQuote symbol = .ok none →
        (MarketData.getQuote env st symbol .STOCK).1 =
          .error "All providers failed for quote") ∧
      (∀ fq, env.fhQuote symbol = .ok (some fq) → fq.d = none →
        (MarketData.getQuote env st symbol .STOCK).1 =
          .error "All providers failed for quote") := by
  intro env st symbol err st1 tr1 hAV
  refine ⟨?_, ?_, ?_, ?_⟩
  · intro fq d hfh hd
    simp [MarketData.getQuote, hAV, hfh, hd]
  · intro e2 hfh
    simp [MarketData.getQuote, hAV, hfh]
  · intro hfh
    simp [MarketData.getQuote, hAV, hfh]
  · intro fq hfh hd
    simp [MarketData.getQuote, hAV, hfh, hd]

/-- The Finnhub wire quote used by the C3 witness. -/
def c3Fq : FhQuoteWire := ⟨"150.5", some "2.1", "1.4", 1700000000⟩

def c3Env : Env := { wEnv with fhQuote := fun _ => .ok (some c3Fq) }

/-- Witness for C3: AlphaVantage down (HTTP 500), Finnhub answering — the
router returns the canonical Finnhub-sourced quote. -/
theorem stock_quote_finnhub_fallback_witness :
    (MarketData.getQuote c3Env wSt "AAPL" .STOCK).1 =
      .ok { symbol := "AAPL", assetType := .STOCK, price := 0, changeAbs := 0,
            changePct := 0, ts := 1700000000, source := "FINNHUB",
            isStale := false } :=
  (stock_quote_finnhub_fallback c3Env wSt "AAPL" "HTTP 500" wSt
    [Eff.cacheRead "quote:av:AAPL", Eff.restFetch "GLOBAL_QUOTE" "AAPL"]
    rfl).1 c3Fq "2.1" rfl rfl

/-- C8: every quote path builds a value of the canonical eight-field `Quote`
shape — symbol, assetType ∈ {STOCK, CRYPTO}, price, changeAbs, changePct,
integer timestamp `ts`, provider source tag, boolean `isStale` — with every
field instantiated: the AlphaVantage network path, the router's Finnhub
fallback, the Binance websocket handler's hot-cache payload, and the Binance
REST path. -/
theorem canonical_quote_shape :
    (∀ env st symbol data q,
      cacheHit (CacheService.getCacheConfig st.store env.now
        ("quote:av:" ++ symbol)) = none →
      env.avQuoteFetch symbol = .ok data → data.note = false →
      data.quote = some q → jsFalsyStr q.price = false →
      (AlphaVantageProvider.getQuote env st symbol).1 =
        .ok { symbol := symbol, assetType := .STOCK,
              price := env.pf (q.price.getD ""), changeAbs := env.pf q.change,
              changePct := env.pf (replaceFirst q.changePct "%"),
              ts := env.dateMs q.latestDay, source := "ALPHAVANTAGE",
              isStale := false }) ∧
    (∀ env st symbol err st1 tr1 fq d,
      AlphaVantageProvider.getQuote env st symbol = (.error err, st1, tr1) →
      env.fhQuote symbol = .ok (some fq) → fq.d = some d →
      (MarketData.getQuote env st symbol .STOCK).1 =
        .ok { symbol := symbol, assetType := .STOCK, price := env.pf fq.c,
              changeAbs := env.pf d, changePct := env.pf fq.dp, ts := fq.t,
              source := "FINNHUB", isStale := false }) ∧
    (∀ env st m, m.e = "24hrTicker" →
      (BinanceProvider.onWsMessage env st (some m)).1.memQuote ("quote:" ++ m.s) =
        some { symbol := m.s, assetType := .CRYPTO, price := env.pf m.c,
               changeAbs := env.pf m.p, changePct := env.pf m.P, ts := m.E,
               source := "BINANCE_WS", isStale := false }) ∧
    (∀ env st symbol d,
      st.memQuote ("quote:" ++ symbol) = none →
      cacheHit (CacheService.getCacheConfig st.store env.now
        ("quote:" ++ symbol)) = none →
      env.restTicker symbol = .ok d →
      (BinanceProvider.getQuote env st symbol).1 =
        .ok { symbol := d.symbol, assetType := .CRYPTO,
              price := env.pf d.lastPrice, changeAbs := env.pf d.priceChange,
              changePct := env.pf d.priceChangePercent, ts := d.closeTime,
              source := "BINANCE_REST", isStale := false }) := by
  refine ⟨?_, ?_, ?_, ?_⟩
  · intro env st symbol data q hmiss hfetch hnote hq hprice
    simp [AlphaVantageProvider.getQuote, hmiss, avQuoteNetwork, hfetch, hnote,
      hq, hprice]
  · intro env st symbol err st1 tr1 fq d hAV hfh hd
    simp [MarketData.getQuote, hAV, hfh, hd]
  · intro env st m he
    simp only [BinanceProvider.onWsMessage, he, if_pos]
    split <;> simp
  · intro env st symbol d hmem hhit hrest
    have h := trackSymbol_preserves_caches st symbol
    have hhit2 : cacheHit (CacheService.getCacheConfig
        (BinanceProvider.trackSymbol st symbol).1.store env.now
        ("quote:" ++ symbol)) = none := by
      rw [h.2.1]; exact hhit
    simp [BinanceProvider.getQuote, h.1, hmem, hhit2, hrest]

/-- The websocket ticker message used by the C8 witness. -/
def c8Msg : TickerMsg := ⟨"24hrTicker", "BTCUSDT", "43000.1", "240.2", "1.2", 1700000000000⟩

/-- Witness for C8: the websocket handler stores the fully populated
canonical quote in the hot cache. -/
theorem canonical_quote_shape_witness :
    (BinanceProvider.onWsMessage wEnv wSt (some c8Msg)).1.memQuote "quote:BTCUSDT" =
      some { symbol := "BTCUSDT", assetType := .CRYPTO, price := 0,
             changeAbs := 0, changePct := 0, ts := 1700000000000,
             source := "BINANCE_WS", isStale := false } :=
  canonical_quote_shape.2.2.1 wEnv wSt c8Msg rfl

/-- C6: the History Store's read path.  `priceHistoryFindMany` returns only
rows of the symbol dated on or after `today - days`, in ascending date order;
with fewer than 20 rows `getCandles` returns the router's live series
unchanged while merely scheduling the background backfill (its result never
enters the response, and the outcome is independent of every backfill
failure); a failed or unusable live fetch yields `none` — the caller never
sees a throw. -/
theorem history_getCandles_fallback :
    ∀ env db symbol assetType days,
      (∀ r ∈ priceHistoryFindMany db symbol (env.today - days),
        r.symbol = symbol ∧ env.today - days ≤ r.date) ∧
      (priceHistoryFindMany db symbol (env.today - days)).Pairwise
        (fun a b => a.date ≤ b.date) ∧
      (∀ f b,
        PriceHistoryService.getCandles
          { env with rowFails := f, appendFails := b } db symbol assetType days =
        PriceHistoryService.getCandles env db symbol assetType days) ∧
      ((priceHistoryFindMany db symbol (env.today - days)).length < 20 →
        (∀ cd,
          env.live (if 365 ≤ days then "2y" else if 180 ≤ days then "6m" else "3m") =
            .ok cd →
          cd.s = "ok" → 0 < cd.c.length →
          PriceHistoryService.getCandles env db symbol assetType days =
            (some cd, [Eff.scheduleBackfill symbol])) ∧
        (∀ e,
          env.live (if 365 ≤ days then "2y" else if 180 ≤ days then "6m" else "3m") =
            .error e →
          PriceHistoryService.getCandles env db symbol assetType days = (none, [])) ∧
        (∀ cd,
          env.live (if 365 ≤ days then "2y" else if 180 ≤ days then "6m" else "3m") =
            .ok cd →
          cd.s ≠ "ok" ∨ cd.c.length = 0 →
          PriceHistoryService.getCandles env db symbol assetType days = (none, []))) ∧
      (¬ (priceHistoryFindMany db symbol (env.today - days)).length < 20 →
        PriceHistoryService.getCandles env db symbol assetType days =
          (some { s := "ok",
                  c := (priceHistoryFindMany db symbol (env.today - days)).map (·.close),
                  h := (priceHistoryFindMany db symbol (env.today - days)).map (·.high),
                  l := (priceHistoryFindMany db symbol (env.today - days)).map (·.low),
                  o := (priceHistoryFindMany db symbol (env.today - days)).map (·.«open»),
                  v := (priceHistoryFindMany db symbol (env.today - days)).map (·.volume),
                  t := (priceHistoryFindMany db symbol (env.today - days)).map
                    (fun r => env.dateToTs r.date) }, [])) := by
  intro env db symbol assetType days
  refine ⟨?_, ?_, ?_, ?_, ?_⟩
  · intro r hr
    have hr2 := List.mem_mergeSort.mp hr
    have := List.mem_filter.mp hr2
    simpa using this.2
  · have hs := @List.sorted_mergeSort PriceRow
      (fun a b : PriceRow => decide (a.date ≤ b.date))
      (fun a b c hab hbc => by
        simp only [decide_eq_true_eq] at *
        omega)
      (fun a b => by
        simp only [Bool.or_eq_true, decide_eq_true_eq]
        omega)
      (db.filter fun r => r.symbol == symbol && decide (env.today - days ≤ r.date))
    exact hs.imp fun hab => of_decide_eq_true hab
  · intro f b
    rfl
  · intro hlen
    refine ⟨?_, ?_, ?_⟩
    · intro cd hlive hok hc
      simp [PriceHistoryService.getCandles, if_pos hlen, hlive, hok, hc]
    · intro e hlive
      simp [PriceHistoryService.getCandles, if_pos hlen, hlive]
    · intro cd hlive hbad
      rcases hbad with hs | hc
      · simp [PriceHistoryService.getCandles, if_pos hlen, hlive, hs]
      · simp [PriceHistoryService.getCandles, if_pos hlen, hlive, hc]
  · intro hlen
    simp only [PriceHistoryService.getCandles]
    rw [if_neg hlen]

/-- The live series answered by the router in the C6 witness. -/
def c6Series : CandleResult :=
  { s := "ok", t := [1, 2], o := [10, 11], h := [12, 13], l := [9, 10],
    c := [11, 12], v := [100, 200], source := "ALPHAVANTAGE" }

def c6Env : HEnv :=
  { today := 1000, tsToDate := fun t => t, dateToTs := fun d => d,
    rowFails := fun _ => false, appendFails := false,
    live := fun r => if r = "2y" then .ok c6Series else .error "down" }

/-- A stored row of the C6 witness table. -/
def c6Row (i : Int) : PriceRow := ⟨"AAPL", 900 + i, .STOCK, 1, 2, 0, 1, 10⟩

/-- Only 5 stored rows — a cache miss for the 20-row threshold. -/
def c6Db : List PriceRow := [c6Row 0, c6Row 1, c6Row 2, c6Row 3, c6Row 4]

/-- Witness for C6: `getCandles(AAPL, STOCK, 400)` with 5 stored rows returns
the live series immediately, scheduling the backfill without awaiting it. -/
theorem history_getCandles_fallback_witness :
    PriceHistoryService.getCandles c6Env c6Db "AAPL" .STOCK 400 =
      (some c6Series, [Eff.scheduleBackfill "AAPL"]) :=
  ((history_getCandles_fallback c6Env c6Db "AAPL" .STOCK 400).2.2.2.1
    (by rw [priceHistoryFindMany, List.length_mergeSort]; decide)).1
    c6Series rfl rfl (by decide)

/-- Under the uniqueness constraint, at most one row carries any given key. -/
theorem countKey_le_one (db : List PriceRow) (k : String × Int)
    (h : UniqueKeys db) : countKey db k ≤ 1 := by
  induction db with
  | nil => simp [countKey]
  | cons a t ih =>
    rcases List.pairwise_cons.mp h with ⟨ha, ht⟩
    rw [countKey, List.countP_cons]
    by_cases hk : keyOf a = k
    · have h0 : countKey t k = 0 := by
        rw [countKey, List.countP_eq_zero]
        intro b hb hbk
        exact ha b hb (by rw [hk, of_decide_eq_true hbk])
      rw [countKey] at h0
      simp [h0, hk]
    · have := ih ht
      rw [countKey] at this
      simp [hk]
      omega

/-- An upsert whose update clause preserves the key keeps the uniqueness
constraint intact. -/
theorem prismaUpsert_uniqueKeys (upd : PriceRow → PriceRow) (nr : PriceRow)
    (hupd : ∀ r, keyOf (upd r) = keyOf r) (db : List PriceRow)
    (h : UniqueKeys db) : UniqueKeys (prismaUpsert upd nr db) := by
  unfold prismaUpsert
  split
  · refine List.Pairwise.map _ ?_ h
    intro a b hab
    have ka : keyOf (if keyOf a = keyOf nr then upd a else a) = keyOf a := by
      split <;> simp [hupd]
    have kb : keyOf (if keyOf b = keyOf nr then upd b else b) = keyOf b := by
      split <;> simp [hupd]
    rw [ka, kb]
    exact hab
  · rename_i hany
    rw [UniqueKeys, List.pairwise_append]
    refine ⟨h, List.pairwise_singleton _ _, ?_⟩
    intro a ha b hb
    simp only [List.mem_singleton] at hb
    subst hb
    intro hk
    exact hany (List.any_eq_true.mpr ⟨a, ha, decide_eq_true hk⟩)

/-- After an upsert, exactly one row carries the written key. -/
theorem prismaUpsert_countKey_self (upd : PriceRow → PriceRow) (nr : PriceRow)
    (hupd : ∀ r, keyOf (upd r) = keyOf r) (db : List PriceRow)
    (h : UniqueKeys db) :
    countKey (prismaUpsert upd nr db) (keyOf nr) = 1 := by
  unfold prismaUpsert
  split
  · rename_i hany
    have hmap : countKey (db.map fun r => if keyOf r = keyOf nr then upd r else r)
        (keyOf nr) = countKey db (keyOf nr) := by
      rw [countKey, countKey, List.countP_map]
      refine List.countP_congr ?_
      intro r _
      have : keyOf (if keyOf r = keyOf nr then upd r else r) = keyOf r := by
        split <;> simp [hupd]
      simp [Function.comp, this]
    obtain ⟨r, hr, hrk⟩ := List.any_eq_true.mp hany
    have h1 : 0 < countKey db (keyOf nr) := by
      rw [countKey, List.countP_pos]
      exact ⟨r, hr, hrk⟩
    have h2 := countKey_le_one db (keyOf nr) h
    rw [hmap]
    omega
  · rename_i hany
    have h0 : countKey db (keyOf nr) = 0 := by
      rw [countKey, List.countP_eq_zero]
      intro b hb hbk
      exact hany (List.any_eq_true.mpr ⟨b, hb, hbk⟩)
    rw [countKey, List.countP_append]
    rw [countKey] at h0
    simp [h0]

/-- Every row carrying the written key after an upsert is either the update
clause applied to some prior row or the created row itself. -/
theorem prismaUpsert_mem_key (upd : PriceRow → PriceRow) (nr : PriceRow)
    (db : List PriceRow) :
    ∀ r ∈ prismaUpsert upd nr db, keyOf r = keyOf nr →
      (∃ r0, r = upd r0) ∨ r = nr := by
  intro r hr hk
  unfold prismaUpsert at hr
  split at hr
  · obtain ⟨r0, hr0, hfr⟩ := List.mem_map.mp hr
    by_cases h0 : keyOf r0 = keyOf nr
    · exact Or.inl ⟨r0, by rw [← hfr, if_pos h0]⟩
    · rw [← hfr, if_neg h0] at hk
      exact absurd hk h0
  · rename_i hany
    rcases List.mem_append.mp hr with h1 | h2
    · exact absurd (List.any_eq_true.mpr ⟨r, h1, decide_eq_true hk⟩) hany
    · exact Or.inr (by simpa using h2)

/-- The backfill loop preserves the `(symbol, date)` uniqueness constraint,
whatever rows fail. -/
theorem backfill_foldl_uniqueKeys (env : HEnv) (symbol : String)
    (aty : AssetType) (cd : CandleResult) :
    ∀ (l : List Nat) (n : Nat) (db : List PriceRow), UniqueKeys db →
      UniqueKeys ((l.foldl (backfillStep env symbol aty cd) (n, db)).2) := by
  intro l
  induction l with
  | nil => intro n db h; exact h
  | cons i t ih =>
    intro n db h
    rw [List.foldl_cons]
    simp only [backfillStep]
    split
    · exact ih n db h
    · exact ih _ _ (prismaUpsert_uniqueKeys
        (updBackfill aty (cd.o.getD i 0) (cd.h.getD i 0) (cd.l.getD i 0)
          (cd.c.getD i 0) (cd.v.getD i 0)) _ (fun r => rfl) db h)

/-- The backfill loop's running counter counts exactly the indices whose row
persisted (the failing rows are skipped, the loop never aborts). -/
theorem backfill_foldl_count (env : HEnv) (symbol : String) (aty : AssetType)
    (cd : CandleResult) :
    ∀ (l : List Nat) (n : Nat) (db : List PriceRow),
      (l.foldl (backfillStep env symbol aty cd) (n, db)).1 =
        n + l.countP (fun i => !env.rowFails i) := by
  intro l
  induction l with
  | nil => intro n db; simp
  | cons i t ih =>
    intro n db
    rw [List.foldl_cons, List.countP_cons]
    simp only [backfillStep]
    by_cases hf : env.rowFails i
    · simp only [if_pos hf, ih, hf]
      simp
    · simp only [if_neg hf, ih, hf]
      simp
      omega

/-- C7: upsert idempotence of the History Store.  Writing the same
`(symbol, date)` candle twice with different values — through
`backfillSymbol`'s upsert or `appendLatestCandle`'s upsert — leaves exactly
one row for that key, whose candle fields are the second write's;
`backfillSymbol` preserves the key-uniqueness constraint on every re-run
(so re-running never duplicates rows), individually failing rows are skipped
without aborting the batch, and the returned count is exactly the number of
rows successfully written. -/
theorem price_history_upsert_idempotent :
    (∀ db s d aty1 aty2 o1 hi1 lo1 c1 v1 o2 hi2 lo2 c2 v2, UniqueKeys db →
      countKey
        (prismaUpsert (updBackfill aty2 o2 hi2 lo2 c2 v2)
          ⟨s, d, aty2, o2, hi2, lo2, c2, v2⟩
          (prismaUpsert (updBackfill aty1 o1 hi1 lo1 c1 v1)
            ⟨s, d, aty1, o1, hi1, lo1, c1, v1⟩ db)) (s, d) = 1 ∧
      ∀ r ∈ prismaUpsert (updBackfill aty2 o2 hi2 lo2 c2 v2)
          ⟨s, d, aty2, o2, hi2, lo2, c2, v2⟩
          (prismaUpsert (updBackfill aty1 o1 hi1 lo1 c1 v1)
            ⟨s, d, aty1, o1, hi1, lo1, c1, v1⟩ db),
        keyOf r = (s, d) →
        r.«open» = o2 ∧ r.high = hi2 ∧ r.low = lo2 ∧ r.close = c2 ∧
          r.volume = v2) ∧
    (∀ db s d aty o1 hi1 lo1 c1 v1 o2 hi2 lo2 c2 v2, UniqueKeys db →
      countKey
        (prismaUpsert (updAppend o2 hi2 lo2 c2 v2)
          ⟨s, d, aty, o2, hi2, lo2, c2, v2⟩
          (prismaUpsert (updAppend o1 hi1 lo1 c1 v1)
            ⟨s, d, aty, o1, hi1, lo1, c1, v1⟩ db)) (s, d) = 1 ∧
      ∀ r ∈ prismaUpsert (updAppend o2 hi2 lo2 c2 v2)
          ⟨s, d, aty, o2, hi2, lo2, c2, v2⟩
          (prismaUpsert (updAppend o1 hi1 lo1 c1 v1)
            ⟨s, d, aty, o1, hi1, lo1, c1, v1⟩ db),
        keyOf r = (s, d) →
        r.«open» = o2 ∧ r.high = hi2 ∧ r.low = lo2 ∧ r.close = c2 ∧
          r.volume = v2) ∧
    (∀ env db s aty res, UniqueKeys db →
      PriceHistoryService.backfillSymbol env db s aty = .ok res →
      UniqueKeys res.2) ∧
    (∀ env db s aty cd, env.live "2y" = .ok cd → cd.s = "ok" →
      cd.c.length ≠ 0 →
      ∃ db2, PriceHistoryService.backfillSymbol env db s aty =
        .ok ((List.range cd.t.length).countP (fun i => !env.rowFails i), db2)) := by
  refine ⟨?_, ?_, ?_, ?_⟩
  · intro db s d aty1 aty2 o1 hi1 lo1 c1 v1 o2 hi2 lo2 c2 v2 h
    have h1 : UniqueKeys (prismaUpsert (updBackfill aty1 o1 hi1 lo1 c1 v1)
        ⟨s, d, aty1, o1, hi1, lo1, c1, v1⟩ db) :=
      prismaUpsert_uniqueKeys (updBackfill aty1 o1 hi1 lo1 c1 v1) _
        (fun r => rfl) db h
    constructor
    · exact prismaUpsert_countKey_self (updBackfill aty2 o2 hi2 lo2 c2 v2)
        ⟨s, d, aty2, o2, hi2, lo2, c2, v2⟩ (fun r => rfl) _ h1
    · intro r hr hk
      rcases prismaUpsert_mem_key (updBackfill aty2 o2 hi2 lo2 c2 v2)
          ⟨s, d, aty2, o2, hi2, lo2, c2, v2⟩ _ r hr hk with ⟨r0, rfl⟩ | rfl
      · exact ⟨rfl, rfl, rfl, rfl, rfl⟩
      · exact ⟨rfl, rfl, rfl, rfl, rfl⟩
  · intro db s d aty o1 hi1 lo1 c1 v1 o2 hi2 lo2 c2 v2 h
    have h1 : UniqueKeys (prismaUpsert (updAppend o1 hi1 lo1 c1 v1)
        ⟨s, d, aty, o1, hi1, lo1, c1, v1⟩ db) :=
      prismaUpsert_uniqueKeys (updAppend o1 hi1 lo1 c1 v1) _
        (fun r => rfl) db h
    constructor
    · exact prismaUpsert_countKey_self (updAppend o2 hi2 lo2 c2 v2)
        ⟨s, d, aty, o2, hi2, lo2, c2, v2⟩ (fun r => rfl) _ h1
    · intro r hr hk
      rcases prismaUpsert_mem_key (updAppend o2 hi2 lo2 c2 v2)
          ⟨s, d, aty, o2, hi2, lo2, c2, v2⟩ _ r hr hk with ⟨r0, rfl⟩ | rfl
      · exact ⟨rfl, rfl, rfl, rfl, rfl⟩
      · exact ⟨rfl, rfl, rfl, rfl, rfl⟩
  · intro env db s aty res h hok
    unfold PriceHistoryService.backfillSymbol at hok
    rcases hl : env.live "2y" with e | cd <;> rw [hl] at hok <;> dsimp only at hok
    · exact absurd hok (by simp)
    · split at hok
      · simp only [Except.ok.injEq] at hok
        subst hok
        exact h
      · simp only [Except.ok.injEq] at hok
        subst hok
        exact backfill_foldl_uniqueKeys env s aty cd _ 0 db h
  · intro env db s aty cd hl hok hlen
    refine ⟨((List.range cd.t.length).foldl (backfillStep env s aty cd) (0, db)).2, ?_⟩
    unfold PriceHistoryService.backfillSymbol
    rw [hl]
    dsimp only
    rw [if_neg (by push_neg; exact ⟨hok, hlen⟩)]
    have hc := backfill_foldl_count env s aty cd (List.range cd.t.length) 0 db
    have hcount : (List.range cd.t.length).countP (fun i => !env.rowFails i) =
        ((List.range cd.t.length).foldl (backfillStep env s aty cd) (0, db)).1 := by
      rw [hc]
      omega
    rw [hcount]

/-- Witness for C7: two backfill upserts of `(AAPL, day 10)` with different
candle values against an empty table leave exactly one row carrying the
second write's values. -/
theorem price_history_upsert_idempotent_witness :
    countKey
      (prismaUpsert (updBackfill .STOCK 11 13 9 12 200)
        ⟨"AAPL", 10, .STOCK, 11, 13, 9, 12, 200⟩
        (prismaUpsert (updBackfill .STOCK 10 12 8 11 100)
          ⟨"AAPL", 10, .STOCK, 10, 12, 8, 11, 100⟩ [])) ("AAPL", 10) = 1 ∧
    ∀ r ∈ prismaUpsert (updBackfill .STOCK 11 13 9 12 200)
        ⟨"AAPL", 10, .STOCK, 11, 13, 9, 12, 200⟩
        (prismaUpsert (updBackfill .STOCK 10 12 8 11 100)
          ⟨"AAPL", 10, .STOCK, 10, 12, 8, 11, 100⟩ []),
      keyOf r = ("AAPL", 10) →
      r.«open» = 11 ∧ r.high = 13 ∧ r.low = 9 ∧ r.close = 12 ∧ r.volume = 200 :=
  price_history_upsert_idempotent.1 [] "AAPL" 10 .STOCK .STOCK
    10 12 8 11 100 11 13 9 12 200 List.Pairwise.nil
